import Mathlib

/-!
Verification of the `kungpao` detection module (`kungpao/detection.py`).

The module is a thin orchestration layer over an external source-extraction
library (`sep`).  We embed its four functions shallowly:

* `simple_convolution_kernel` — the six hand-tabulated convolution kernels
  (floating-point literals are modelled as exact rationals);
* `get_gaussian_kernel` — the Gaussian kernel formula; the external numeric
  functions `scipy.stats.norm.cdf` and `numpy.sqrt` are modelled as explicit
  function parameters `cdf` and `sqrt`, with the properties of the true
  functions (strict monotonicity of the normal CDF, nonnegativity of the
  square root) taken as hypotheses where a theorem needs them;
* `sep_background` — background estimation; the external `sep.Background`
  constructor is a function parameter producing an opaque `BkgModel`
  (global RMS scalar plus a per-pixel background map, following the
  module's narrow call contract); the in-place subtraction `bkg.subfrom(img)`
  is modelled by explicit state passing: the function returns both its
  Python return value and the caller's array after the call;
* `sep_detection` — the orchestrator; `sep.extract` is modelled by two
  function parameters (one for each value of `segmentation_map`), and the
  possible Python returns (including the implicit `None`) by `DetRet`.
-/

/-- Error message of the final `else` branch of `simple_convolution_kernel`. -/
def unsupportedKernelMsg : String := "### More options will be available in the future"

/-- Error message for a kernel argument of the wrong type in `sep_detection`. -/
def wrongKernelMsg : String := "Wrong choice for convolution kernel"

/-- `simple_convolution_kernel(kernel)`: the six precomputed convolution
kernels, raising (modelled as `Except.error`) for any other preset id. -/
def simple_convolution_kernel (kernel : ℤ) : Except String (List (List ℚ)) :=
  if kernel = 1 then
    Except.ok [[0.560000, 0.980000, 0.560000],
               [0.980000, 1.000000, 0.980000],
               [0.560000, 0.980000, 0.560000]]
  else if kernel = 2 then
    Except.ok [[0.000000, 0.220000, 0.480000, 0.220000, 0.000000],
               [0.220000, 0.990000, 1.000000, 0.990000, 0.220000],
               [0.480000, 1.000000, 1.000000, 1.000000, 0.480000],
               [0.220000, 0.990000, 1.000000, 0.990000, 0.220000],
               [0.000000, 0.220000, 0.480000, 0.220000, 0.000000]]
  else if kernel = 3 then
    Except.ok [[0.150000, 0.770000, 1.000000, 0.770000, 0.150000],
               [0.770000, 1.000000, 1.000000, 1.000000, 0.770000],
               [1.000000, 1.000000, 1.000000, 1.000000, 1.000000],
               [0.770000, 1.000000, 1.000000, 1.000000, 0.770000],
               [0.150000, 0.770000, 1.000000, 0.770000, 0.150000]]
  else if kernel = 4 then
    Except.ok [[0.092163, 0.221178, 0.296069, 0.221178, 0.092163],
               [0.221178, 0.530797, 0.710525, 0.530797, 0.221178],
               [0.296069, 0.710525, 0.951108, 0.710525, 0.296069],
               [0.221178, 0.530797, 0.710525, 0.530797, 0.221178],
               [0.092163, 0.221178, 0.296069, 0.221178, 0.092163]]
  else if kernel = 5 then
    Except.ok [[0.047454, 0.109799, 0.181612, 0.214776, 0.181612, 0.109799, 0.047454],
               [0.109799, 0.254053, 0.420215, 0.496950, 0.420215, 0.254053, 0.109799],
               [0.181612, 0.420215, 0.695055, 0.821978, 0.695055, 0.420215, 0.181612],
               [0.214776, 0.496950, 0.821978, 0.972079, 0.821978, 0.496950, 0.214776],
               [0.181612, 0.420215, 0.695055, 0.821978, 0.695055, 0.420215, 0.181612],
               [0.109799, 0.254053, 0.420215, 0.496950, 0.420215, 0.254053, 0.109799],
               [0.047454, 0.109799, 0.181612, 0.214776, 0.181612, 0.109799, 0.047454]]
  else if kernel = 6 then
    Except.ok [[0.030531, 0.065238, 0.112208, 0.155356, 0.173152, 0.155356, 0.112208, 0.065238, 0.030531],
               [0.065238, 0.139399, 0.239763, 0.331961, 0.369987, 0.331961, 0.239763, 0.139399, 0.065238],
               [0.112208, 0.239763, 0.412386, 0.570963, 0.636368, 0.570963, 0.412386, 0.239763, 0.112208],
               [0.155356, 0.331961, 0.570963, 0.790520, 0.881075, 0.790520, 0.570963, 0.331961, 0.155356],
               [0.173152, 0.369987, 0.636368, 0.881075, 0.982004, 0.881075, 0.636368, 0.369987, 0.173152],
               [0.155356, 0.331961, 0.570963, 0.790520, 0.881075, 0.790520, 0.570963, 0.331961, 0.155356],
               [0.112208, 0.239763, 0.412386, 0.570963, 0.636368, 0.570963, 0.412386, 0.239763, 0.112208],
               [0.065238, 0.139399, 0.239763, 0.331961, 0.369987, 0.331961, 0.239763, 0.139399, 0.065238],
               [0.030531, 0.065238, 0.112208, 0.155356, 0.173152, 0.155356, 0.112208, 0.065238, 0.030531]]
  else
    Except.error unsupportedKernelMsg

/-- Reference table for preset 1 (Tophat_3.0_3x3), as the spec's literal table. -/
def refKernel1 : List (List ℚ) :=
  [[0.560000, 0.980000, 0.560000],
   [0.980000, 1.000000, 0.980000],
   [0.560000, 0.980000, 0.560000]]

/-- Reference table for preset 2 (Tophat_4.0_5x5), as the spec's literal table. -/
def refKernel2 : List (List ℚ) :=
  [[0.000000, 0.220000, 0.480000, 0.220000, 0.000000],
   [0.220000, 0.990000, 1.000000, 0.990000, 0.220000],
   [0.480000, 1.000000, 1.000000, 1.000000, 0.480000],
   [0.220000, 0.990000, 1.000000, 0.990000, 0.220000],
   [0.000000, 0.220000, 0.480000, 0.220000, 0.000000]]

/-- Reference table for preset 3 (Tophat_5.0_5x5), as the spec's literal table. -/
def refKernel3 : List (List ℚ) :=
  [[0.150000, 0.770000, 1.000000, 0.770000, 0.150000],
   [0.770000, 1.000000, 1.000000, 1.000000, 0.770000],
   [1.000000, 1.000000, 1.000000, 1.000000, 1.000000],
   [0.770000, 1.000000, 1.000000, 1.000000, 0.770000],
   [0.150000, 0.770000, 1.000000, 0.770000, 0.150000]]

/-- Reference table for preset 4 (Gaussian_3.0_5x5), as the spec's literal table. -/
def refKernel4 : List (List ℚ) :=
  [[0.092163, 0.221178, 0.296069, 0.221178, 0.092163],
   [0.221178, 0.530797, 0.710525, 0.530797, 0.221178],
   [0.296069, 0.710525, 0.951108, 0.710525, 0.296069],
   [0.221178, 0.530797, 0.710525, 0.530797, 0.221178],
   [0.092163, 0.221178, 0.296069, 0.221178, 0.092163]]

/-- Reference table for preset 5 (Gaussian_4.0_7x7), as the spec's literal table. -/
def refKernel5 : List (List ℚ) :=
  [[0.047454, 0.109799, 0.181612, 0.214776, 0.181612, 0.109799, 0.047454],
   [0.109799, 0.254053, 0.420215, 0.496950, 0.420215, 0.254053, 0.109799],
   [0.181612, 0.420215, 0.695055, 0.821978, 0.695055, 0.420215, 0.181612],
   [0.214776, 0.496950, 0.821978, 0.972079, 0.821978, 0.496950, 0.214776],
   [0.181612, 0.420215, 0.695055, 0.821978, 0.695055, 0.420215, 0.181612],
   [0.109799, 0.254053, 0.420215, 0.496950, 0.420215, 0.254053, 0.109799],
   [0.047454, 0.109799, 0.181612, 0.214776, 0.181612, 0.109799, 0.047454]]

/-- Reference table for preset 6 (Gaussian_5.0_9x9), as the spec's literal table. -/
def refKernel6 : List (List ℚ) :=
  [[0.030531, 0.065238, 0.112208, 0.155356, 0.173152, 0.155356, 0.112208, 0.065238, 0.030531],
   [0.065238, 0.139399, 0.239763, 0.331961, 0.369987, 0.331961, 0.239763, 0.139399, 0.065238],
   [0.112208, 0.239763, 0.412386, 0.570963, 0.636368, 0.570963, 0.412386, 0.239763, 0.112208],
   [0.155356, 0.331961, 0.570963, 0.790520, 0.881075, 0.790520, 0.570963, 0.331961, 0.155356],
   [0.173152, 0.369987, 0.636368, 0.881075, 0.982004, 0.881075, 0.636368, 0.369987, 0.173152],
   [0.155356, 0.331961, 0.570963, 0.790520, 0.881075, 0.790520, 0.570963, 0.331961, 0.155356],
   [0.112208, 0.239763, 0.412386, 0.570963, 0.636368, 0.570963, 0.412386, 0.239763, 0.112208],
   [0.065238, 0.139399, 0.239763, 0.331961, 0.369987, 0.331961, 0.239763, 0.139399, 0.065238],
   [0.030531, 0.065238, 0.112208, 0.155356, 0.173152, 0.155356, 0.112208, 0.065238, 0.030531]]

/-- The spec's literal reference table for each preset id (empty off 1–6). -/
def referenceKernel (k : ℤ) : List (List ℚ) :=
  if k = 1 then refKernel1
  else if k = 2 then refKernel2
  else if k = 3 then refKernel3
  else if k = 4 then refKernel4
  else if k = 5 then refKernel5
  else if k = 6 then refKernel6
  else []

/-- Element access on a matrix-as-list-of-rows, with default `0` off the ends. -/
def matGet (M : List (List ℚ)) (i j : ℕ) : ℚ :=
  ((M[i]?.getD [])[j]?).getD 0

/-- Element access on a list, with default `0` off the end. -/
def lget (l : List ℚ) (k : ℕ) : ℚ :=
  (l[k]?).getD 0

/-- Element-wise closeness of two matrices within a tolerance. -/
def matClose (A B : List (List ℚ)) (tol : ℚ) : Prop :=
  A.length = B.length ∧ ∀ i j, |matGet A i j - matGet B i j| ≤ tol

/-- The matrix an `Except`-valued kernel computation produced (empty on error). -/
def okMat (e : Except String (List (List ℚ))) : List (List ℚ) :=
  match e with
  | Except.ok m => m
  | Except.error _ => []

theorem matClose_refl (A : List (List ℚ)) (tol : ℚ) (h : 0 ≤ tol) : matClose A A tol :=
  ⟨rfl, fun _ _ => by simp [h]⟩

/-- `np.linspace(a, b, num)`: `num` evenly spaced samples from `a` to `b`. -/
def linspace (a b : ℚ) (num : ℕ) : List ℚ :=
  if num ≤ 1 then List.replicate num a
  else (List.range num).map (fun k : ℕ => a + (k : ℚ) * ((b - a) / ((num : ℚ) - 1)))

/-- `interval = (2 * size + 1.) / size` of `get_gaussian_kernel`. -/
def gauss_interval (size : ℕ) : ℚ := (2 * (size : ℚ) + 1) / (size : ℚ)

/-- The sample axis `x = np.linspace(-size - interval/2., size + interval/2., size + 1)`. -/
def gauss_x (size : ℕ) : List ℚ :=
  linspace (-(size : ℚ) - gauss_interval size / 2) ((size : ℚ) + gauss_interval size / 2)
    (size + 1)

/-- `np.diff`: successive differences of a 1-D array. -/
def np_diff (l : List ℚ) : List ℚ := List.zipWith (fun a b => a - b) l.tail l

/-- `kern1d = np.diff(st.norm.cdf(x))`, with the normal CDF as parameter `cdf`. -/
def gauss_kern1d (cdf : ℚ → ℚ) (size : ℕ) : List ℚ := np_diff ((gauss_x size).map cdf)

/-- `np.sqrt(np.outer(l, l))`, with the square root as parameter `sqrt`. -/
def outer_sqrt (sqrt : ℚ → ℚ) (l : List ℚ) : List (List ℚ) :=
  l.map (fun a => l.map (fun b => sqrt (a * b)))

/-- `kernel_raw.sum()`: the sum of all entries of a matrix. -/
def matSum (M : List (List ℚ)) : ℚ := (M.map List.sum).sum

/-- `get_gaussian_kernel(size, sig)`: the normalized 2-D Gaussian kernel.
`cdf` models `scipy.stats.norm.cdf` and `sqrt` models `numpy.sqrt`; as in the
source, the parameter `sig` is accepted but never used. -/
def get_gaussian_kernel (cdf sqrt : ℚ → ℚ) (size : ℕ) (sig : ℚ) : List (List ℚ) :=
  (outer_sqrt sqrt (gauss_kern1d cdf size)).map
    (fun row => row.map (fun v => v / matSum (outer_sqrt sqrt (gauss_kern1d cdf size))))

/-- A matrix has `m` rows, each of length `n`. -/
def matShapeIs (M : List (List ℚ)) (m n : ℕ) : Prop :=
  M.length = m ∧ ∀ row ∈ M, row.length = n

/-- A matrix equals its transpose. -/
def matSymm (M : List (List ℚ)) : Prop := ∀ i j, matGet M i j = matGet M j i

/-- All entries of a matrix are nonnegative. -/
def matNonneg (M : List (List ℚ)) : Prop := ∀ i j, 0 ≤ matGet M i j

theorem length_linspace (a b : ℚ) (num : ℕ) : (linspace a b num).length = num := by
  unfold linspace; split <;> simp

theorem length_gauss_x (size : ℕ) : (gauss_x size).length = size + 1 := by
  simp [gauss_x, length_linspace]

theorem length_np_diff (l : List ℚ) : (np_diff l).length = l.length - 1 := by
  simp [np_diff]

theorem length_gauss_kern1d (cdf : ℚ → ℚ) (size : ℕ) :
    (gauss_kern1d cdf size).length = size := by
  simp [gauss_kern1d, length_np_diff, length_gauss_x]

theorem lget_map (f : ℚ → ℚ) (l : List ℚ) (k : ℕ) (h : k < l.length) :
    lget (l.map f) k = f (lget l k) := by
  simp [lget, List.getElem?_map, List.getElem?_eq_getElem h]

theorem lget_tail (l : List ℚ) (k : ℕ) : lget l.tail k = lget l (k + 1) := by
  cases l <;> simp [lget]

theorem lget_zipWith (f : ℚ → ℚ → ℚ) (l₁ l₂ : List ℚ) (k : ℕ)
    (h₁ : k < l₁.length) (h₂ : k < l₂.length) :
    lget (List.zipWith f l₁ l₂) k = f (lget l₁ k) (lget l₂ k) := by
  induction l₁ generalizing l₂ k with
  | nil => simp at h₁
  | cons a t ih =>
    cases l₂ with
    | nil => simp at h₂
    | cons b t₂ =>
      cases k with
      | zero => simp [lget]
      | succ k =>
        simpa [lget] using ih t₂ k (by simpa using h₁) (by simpa using h₂)

theorem lget_range_map (f : ℕ → ℚ) (n k : ℕ) (h : k < n) :
    lget ((List.range n).map f) k = f k := by
  simp [lget, List.getElem?_map, List.getElem?_range h]

/-- The affine value of the `k`-th linspace sample of `gauss_x`. -/
def gauss_a (size : ℕ) : ℚ := (size : ℚ) + gauss_interval size / 2

/-- The spacing of consecutive samples of `gauss_x`. -/
def gauss_step (size : ℕ) : ℚ := 2 * gauss_a size / (size : ℚ)

/-- Closed form of the `k`-th sample of `gauss_x`. -/
def gauss_xval (size k : ℕ) : ℚ := -gauss_a size + (k : ℚ) * gauss_step size

theorem lget_gauss_x (size : ℕ) (hs : 1 ≤ size) (k : ℕ) (h : k < size + 1) :
    lget (gauss_x size) k = gauss_xval size k := by
  unfold gauss_x linspace
  rw [if_neg (by omega)]
  rw [lget_range_map _ _ _ h]
  unfold gauss_xval gauss_step gauss_a
  push_cast
  ring

theorem lget_gauss_kern1d (cdf : ℚ → ℚ) (size : ℕ) (hs : 1 ≤ size) (k : ℕ)
    (h : k < size) :
    lget (gauss_kern1d cdf size) k
      = cdf (gauss_xval size (k + 1)) - cdf (gauss_xval size k) := by
  unfold gauss_kern1d np_diff
  rw [lget_zipWith _ _ _ k (by simp [length_gauss_x]; omega) (by simp [length_gauss_x]; omega)]
  rw [lget_tail, lget_map _ _ _ (by simp [length_gauss_x]; omega),
    lget_map _ _ _ (by simp [length_gauss_x]; omega)]
  rw [lget_gauss_x size hs (k + 1) (by omega), lget_gauss_x size hs k (by omega)]

theorem gauss_a_pos (size : ℕ) (hs : 1 ≤ size) : 0 < gauss_a size := by
  have h0 : (0 : ℚ) < (size : ℚ) := by exact_mod_cast Nat.lt_of_lt_of_le Nat.zero_lt_one hs
  have hint : 0 < gauss_interval size := div_pos (by positivity) h0
  unfold gauss_a
  positivity

theorem gauss_step_pos (size : ℕ) (hs : 1 ≤ size) : 0 < gauss_step size := by
  have h0 : (0 : ℚ) < (size : ℚ) := by exact_mod_cast Nat.lt_of_lt_of_le Nat.zero_lt_one hs
  exact div_pos (by linarith [gauss_a_pos size hs]) h0

theorem gauss_xval_lt (size : ℕ) (hs : 1 ≤ size) (k : ℕ) :
    gauss_xval size k < gauss_xval size (k + 1) := by
  have hstep := gauss_step_pos size hs
  have h : gauss_xval size (k + 1) = gauss_xval size k + gauss_step size := by
    unfold gauss_xval; push_cast; ring
  linarith

theorem gauss_kern1d_lget_nonneg (cdf : ℚ → ℚ) (hmono : Monotone cdf) (size : ℕ)
    (hs : 1 ≤ size) : ∀ k, 0 ≤ lget (gauss_kern1d cdf size) k := by
  intro k
  by_cases h : k < size
  · rw [lget_gauss_kern1d cdf size hs k h]
    have := hmono (le_of_lt (gauss_xval_lt size hs k))
    linarith
  · have hnone : (gauss_kern1d cdf size)[k]? = none := by
      rw [List.getElem?_eq_none_iff, length_gauss_kern1d]; omega
    simp [lget, hnone]

theorem gauss_kern1d_mem_nonneg (cdf : ℚ → ℚ) (hmono : Monotone cdf) (size : ℕ)
    (hs : 1 ≤ size) : ∀ a ∈ gauss_kern1d cdf size, 0 ≤ a := by
  intro a ha
  obtain ⟨i, hi⟩ := List.mem_iff_getElem?.mp ha
  have h := gauss_kern1d_lget_nonneg cdf hmono size hs i
  rw [lget, hi] at h
  simpa using h

theorem outer_sqrt_entry_nonneg (sqrt : ℚ → ℚ) (hsq : ∀ x : ℚ, 0 ≤ x → 0 ≤ sqrt x)
    (l : List ℚ) (hl : ∀ a ∈ l, 0 ≤ a) :
    ∀ row ∈ outer_sqrt sqrt l, ∀ v ∈ row, 0 ≤ v := by
  intro row hrow v hv
  simp only [outer_sqrt, List.mem_map] at hrow
  obtain ⟨a, ha, rfl⟩ := hrow
  simp only [List.mem_map] at hv
  obtain ⟨b, hb, rfl⟩ := hv
  exact hsq _ (mul_nonneg (hl a ha) (hl b hb))

theorem matSum_nonneg (M : List (List ℚ)) (h : ∀ row ∈ M, ∀ v ∈ row, 0 ≤ v) :
    0 ≤ matSum M := by
  unfold matSum
  apply List.sum_nonneg
  intro s hs
  simp only [List.mem_map] at hs
  obtain ⟨row, hrow, rfl⟩ := hs
  exact List.sum_nonneg (h row hrow)

theorem list_sum_pos_of_mem (l : List ℚ) (hn : ∀ y ∈ l, 0 ≤ y) (x : ℚ) (hx : x ∈ l)
    (hp : 0 < x) : 0 < l.sum := by
  induction l with
  | nil => simp at hx
  | cons a t ih =>
    rw [List.sum_cons]
    have ht : 0 ≤ t.sum := List.sum_nonneg (fun y hy => hn y (List.mem_cons_of_mem _ hy))
    rcases List.mem_cons.mp hx with h | h
    · subst h; linarith
    · have := ih (fun y hy => hn y (List.mem_cons_of_mem _ hy)) h
      have ha : 0 ≤ a := hn a (List.mem_cons_self a t)
      linarith

theorem matSum_outer_pos (sqrt : ℚ → ℚ) (hsq0 : ∀ x : ℚ, 0 ≤ x → 0 ≤ sqrt x)
    (hsq1 : ∀ x : ℚ, 0 < x → 0 < sqrt x) (l : List ℚ) (hl : ∀ a ∈ l, 0 ≤ a)
    (hne : l ≠ []) (hhead : 0 < lget l 0) : 0 < matSum (outer_sqrt sqrt l) := by
  obtain ⟨a, t, rfl⟩ := List.exists_cons_of_ne_nil hne
  have ha : 0 < a := by simpa [lget] using hhead
  have hnn : ∀ row ∈ outer_sqrt sqrt (a :: t), ∀ v ∈ row, 0 ≤ v :=
    outer_sqrt_entry_nonneg sqrt hsq0 _ hl
  have hmem_row : (a :: t).map (fun b => sqrt (a * b)) ∈ outer_sqrt sqrt (a :: t) :=
    List.mem_map_of_mem _ (List.mem_cons_self a t)
  have hentry : sqrt (a * a) ∈ (a :: t).map (fun b => sqrt (a * b)) :=
    List.mem_map_of_mem _ (List.mem_cons_self a t)
  have hrow_pos : 0 < ((a :: t).map (fun b => sqrt (a * b))).sum :=
    list_sum_pos_of_mem _ (hnn _ hmem_row) _ hentry (hsq1 _ (mul_pos ha ha))
  unfold matSum
  apply list_sum_pos_of_mem _ ?nonneg _ (List.mem_map_of_mem List.sum hmem_row) hrow_pos
  intro y hy
  simp only [List.mem_map] at hy
  obtain ⟨row, hrow, rfl⟩ := hy
  exact List.sum_nonneg (hnn row hrow)

theorem matGet_map_div (M : List (List ℚ)) (s : ℚ) (i j : ℕ) :
    matGet (M.map (fun row => row.map (fun v => v / s))) i j = matGet M i j / s := by
  unfold matGet
  rw [List.getElem?_map]
  cases h : M[i]? with
  | none => simp [zero_div]
  | some row =>
    simp only [Option.map_some', Option.getD_some]
    rw [List.getElem?_map]
    cases h2 : row[j]? with
    | none => simp [zero_div]
    | some v => simp

theorem matGet_outer_symm (sqrt : ℚ → ℚ) (l : List ℚ) (i j : ℕ) :
    matGet (outer_sqrt sqrt l) i j = matGet (outer_sqrt sqrt l) j i := by
  unfold matGet outer_sqrt
  rw [List.getElem?_map, List.getElem?_map]
  cases h1 : l[i]? with
  | none =>
    cases h2 : l[j]? with
    | none => simp
    | some b => simp [List.getElem?_map, h1]
  | some a =>
    cases h2 : l[j]? with
    | none => simp [List.getElem?_map, h2]
    | some b =>
      simp only [Option.map_some', Option.getD_some, List.getElem?_map, h1, h2]
      rw [mul_comm]

theorem matGet_nonneg_of_all (M : List (List ℚ)) (h : ∀ row ∈ M, ∀ v ∈ row, 0 ≤ v)
    (i j : ℕ) : 0 ≤ matGet M i j := by
  unfold matGet
  cases h1 : M[i]? with
  | none => simp
  | some row =>
    simp only [Option.getD_some]
    cases h2 : row[j]? with
    | none => simp
    | some v =>
      have hrow : row ∈ M := List.mem_iff_getElem?.mpr ⟨i, h1⟩
      have hv : v ∈ row := List.mem_iff_getElem?.mpr ⟨j, h2⟩
      simpa using h row hrow v hv

theorem listSum_map_div (l : List ℚ) (s : ℚ) :
    (l.map (fun v => v / s)).sum = l.sum / s := by
  induction l with
  | nil => simp
  | cons a t ih => simp [ih, add_div]

theorem matSum_map_div (M : List (List ℚ)) (s : ℚ) :
    matSum (M.map (fun row => row.map (fun v => v / s))) = matSum M / s := by
  unfold matSum
  rw [List.map_map]
  have h1 : (List.sum ∘ fun row : List ℚ => row.map (fun v => v / s))
      = (fun v : ℚ => v / s) ∘ List.sum := by
    funext row
    exact listSum_map_div row s
  rw [h1, ← List.map_map, listSum_map_div]

/-- C1 (amended): for every size >= 1 and every sigma, the matrix returned by
`get_gaussian_kernel(size, sigma)` has shape `(size, size)` — not
`(2*size+1, 2*size+1)` as claimed: the sample axis has `size+1` points, so the
differenced 1-D kernel has `size` entries and the outer product is
`size × size`.  The shape is independent of the modelled `cdf` and `sqrt`. -/
theorem gaussian_kernel_shape (cdf sqrt : ℚ → ℚ) (size : ℕ) (sig : ℚ)
    (hs : 1 ≤ size) :
    matShapeIs (get_gaussian_kernel cdf sqrt size sig) size size := by
  constructor
  · simp [get_gaussian_kernel, outer_sqrt, length_gauss_kern1d]
  · intro row hrow
    simp only [get_gaussian_kernel, List.mem_map] at hrow
    obtain ⟨row0, h0, rfl⟩ := hrow
    simp only [outer_sqrt, List.mem_map] at h0
    obtain ⟨a, ha, rfl⟩ := h0
    simp [length_gauss_kern1d]

/-- Witness for C1's amended theorem at the concrete input `size = 2`. -/
theorem gaussian_kernel_shape_wit : matShapeIs (get_gaussian_kernel id id 2 0) 2 2 :=
  gaussian_kernel_shape id id 2 0 (by norm_num)

/-- Counterexample to C1 as stated: at `size = 1` the returned matrix has 1 row,
not `2*1+1 = 3` rows.  The row count does not depend on the external `cdf` and
`sqrt` functions (here instantiated with `id`). -/
theorem gaussian_kernel_shape_cex : (get_gaussian_kernel id id 1 0).length ≠ 2 * 1 + 1 := by
  decide

/-- C6: for every size >= 1 and every sigma, the Gaussian kernel matrix is
symmetric, has all entries nonnegative, and sums to exactly 1 (so within any
tolerance).  The external functions are assumed to behave like the standard
normal CDF (strictly monotone) and the square root (nonnegative on nonnegative
inputs, positive on positive inputs). -/
theorem gaussian_kernel_props (cdf sqrt : ℚ → ℚ) (size : ℕ) (sig : ℚ)
    (hmono : StrictMono cdf) (hsq0 : ∀ x : ℚ, 0 ≤ x → 0 ≤ sqrt x)
    (hsq1 : ∀ x : ℚ, 0 < x → 0 < sqrt x) (hs : 1 ≤ size) :
    matSymm (get_gaussian_kernel cdf sqrt size sig)
      ∧ matNonneg (get_gaussian_kernel cdf sqrt size sig)
      ∧ matSum (get_gaussian_kernel cdf sqrt size sig) = 1 := by
  have hl : ∀ a ∈ gauss_kern1d cdf size, 0 ≤ a :=
    gauss_kern1d_mem_nonneg cdf hmono.monotone size hs
  have hraw : ∀ row ∈ outer_sqrt sqrt (gauss_kern1d cdf size), ∀ v ∈ row, 0 ≤ v :=
    outer_sqrt_entry_nonneg sqrt hsq0 _ hl
  have hne : gauss_kern1d cdf size ≠ [] := by
    apply List.ne_nil_of_length_pos
    rw [length_gauss_kern1d]; omega
  have hhead : 0 < lget (gauss_kern1d cdf size) 0 := by
    rw [lget_gauss_kern1d cdf size hs 0 (by omega)]
    have := hmono (gauss_xval_lt size hs 0)
    linarith
  have hpos : 0 < matSum (outer_sqrt sqrt (gauss_kern1d cdf size)) :=
    matSum_outer_pos sqrt hsq0 hsq1 _ hl hne hhead
  refine ⟨?_, ?_, ?_⟩
  · intro i j
    unfold get_gaussian_kernel
    rw [matGet_map_div, matGet_map_div, matGet_outer_symm]
  · intro i j
    unfold get_gaussian_kernel
    rw [matGet_map_div]
    exact div_nonneg (matGet_nonneg_of_all _ hraw i j) (le_of_lt hpos)
  · unfold get_gaussian_kernel
    rw [matSum_map_div]
    exact div_self (ne_of_gt hpos)

/-- Witness for C6 at the concrete input `size = 1`, `sig = 0`, with the
identity instantiating both external functions (strictly monotone, and
nonnegativity-preserving). -/
theorem gaussian_kernel_props_wit :
    matSymm (get_gaussian_kernel id id 1 0) ∧ matNonneg (get_gaussian_kernel id id 1 0)
      ∧ matSum (get_gaussian_kernel id id 1 0) = 1 :=
  gaussian_kernel_props id id 1 0 strictMono_id (fun _ h => h) (fun _ h => h)
    (by norm_num)

/-- C10: the result of `get_gaussian_kernel` does not depend on its `sig`
argument at all — the source never reads `sig`, so any two sigma values give
element-wise equal (indeed definitionally equal) matrices. -/
theorem gaussian_kernel_ignores_sig (cdf sqrt : ℚ → ℚ) (size : ℕ) (sig1 sig2 : ℚ) :
    get_gaussian_kernel cdf sqrt size sig1 = get_gaussian_kernel cdf sqrt size sig2 := rfl

/-- C5: for each preset id 1–6, `simple_convolution_kernel` succeeds and the
returned matrix is element-wise within 1e-6 of the literal reference table
(in fact the rational embeddings are exactly equal). -/
theorem convolution_kernel_presets (k : ℤ) (h1 : 1 ≤ k) (h2 : k ≤ 6) :
    (simple_convolution_kernel k).isOk = true
      ∧ matClose (okMat (simple_convolution_kernel k)) (referenceKernel k)
        (1 / 1000000) := by
  have htol : (0 : ℚ) ≤ 1 / 1000000 := by norm_num
  interval_cases k <;> exact ⟨rfl, matClose_refl _ _ htol⟩

/-- Witness for C5 at the concrete preset id 4. -/
theorem convolution_kernel_presets_wit :
    (simple_convolution_kernel 4).isOk = true
      ∧ matClose (okMat (simple_convolution_kernel 4)) (referenceKernel 4)
        (1 / 1000000) :=
  convolution_kernel_presets 4 (by norm_num) (by norm_num)

/-- C7: `simple_convolution_kernel` returns the unsupported-preset error
("### More options will be available in the future") exactly for integer ids
outside 1–6, and succeeds exactly on ids 1–6. -/
theorem convolution_kernel_unsupported (k : ℤ) :
    (simple_convolution_kernel k = Except.error unsupportedKernelMsg ↔ (k < 1 ∨ 6 < k))
      ∧ ((simple_convolution_kernel k).isOk = true ↔ (1 ≤ k ∧ k ≤ 6)) := by
  unfold simple_convolution_kernel
  split_ifs with h1 h2 h3 h4 h5 h6 <;> simp [Except.isOk, Except.toBool] <;> omega

/-- A caller-owned image array: its first-axis extent (`img.shape[0]`) and its
pixel data (flattened). -/
structure Image where
  shape0 : ℕ
  data : List ℚ

/-- The opaque background model produced by the external `sep.Background`:
its `globalrms` scalar and the per-pixel background estimate that
`bkg.subfrom` subtracts. -/
structure BkgModel where
  globalrms : ℚ
  back : ℕ → ℚ

/-- `bkg.subfrom(img)`: subtract the background estimate from every pixel. -/
def bkg_subfrom (b : BkgModel) (d : List ℚ) : List ℚ :=
  List.zipWith (fun i v => v - b.back i) (List.range d.length) d

/-- The tile/filter size defaulting of `sep_background` (lines 125–134):
each of `bw, bh` defaults to `img.shape[0] / 5` floored at `bkgsize_min`, and
`fw, fh` default to half of `bw, bh`. -/
def sep_background_sizes (shape0 : ℕ) (bw bh fw fh : Option ℚ) (bkgsize_min : ℚ) :
    ℚ × ℚ × ℚ × ℚ :=
  let bw2 := match bw with
    | some v => v
    | none => if (shape0 : ℚ) / 5 ≥ bkgsize_min then (shape0 : ℚ) / 5 else bkgsize_min
  let bh2 := match bh with
    | some v => v
    | none => if (shape0 : ℚ) / 5 ≥ bkgsize_min then (shape0 : ℚ) / 5 else bkgsize_min
  let fw2 := match fw with | some v => v | none => bw2 / 2
  let fh2 := match fh with | some v => v | none => bh2 / 2
  (bw2, bh2, fw2, fh2)

/-- The background model `sep_background` obtains from the external
constructor: defaulted sizes, and the mask coerced to boolean. -/
def sep_background_model (sepB : Image → Option (List Bool) → ℚ → ℚ → ℚ → ℚ → BkgModel)
    (img : Image) (mask : Option (List ℚ)) (bw bh fw fh : Option ℚ)
    (bkgsize_min : ℚ) : BkgModel :=
  let p := sep_background_sizes img.shape0 bw bh fw fh bkgsize_min
  sepB img (mask.map (fun l => l.map (fun v => v != 0))) p.1 p.2.1 p.2.2.1 p.2.2.2

/-- The Python return value of `sep_background`: `(bkg, img)` under
`subtract=True`, the bare model otherwise. -/
inductive BkgRet where
  | withImage (bkg : BkgModel) (img : Image)
  | bkgOnly (bkg : BkgModel)

/-- `sep_background(img, mask, bw, bh, fw, fh, subtract, bkgsize_min)`.
The in-place mutation is modelled by state passing: the second component is
the state of the caller's image array after the call. -/
def sep_background (sepB : Image → Option (List Bool) → ℚ → ℚ → ℚ → ℚ → BkgModel)
    (img : Image) (mask : Option (List ℚ)) (bw bh fw fh : Option ℚ)
    (subtract : Bool) (bkgsize_min : ℚ) : BkgRet × Image :=
  let bkg := sep_background_model sepB img mask bw bh fw fh bkgsize_min
  if subtract then
    let img2 := Image.mk img.shape0 (bkg_subfrom bkg img.data)
    (BkgRet.withImage bkg img2, img2)
  else
    (BkgRet.bkgOnly bkg, img)

/-- The runtime type of `sep_detection`'s `kernel` argument: an integer, a
two-element sequence `(size, sigma)`, or anything else. -/
inductive KernelArg where
  | kInt (k : ℤ)
  | kSeq (size : ℕ) (sig : ℚ)
  | kOther (descr : String)

/-- The kernel argument is neither an integer nor a sequence. -/
def isOtherKernelArg : KernelArg → Prop
  | KernelArg.kOther _ => True
  | _ => False

/-- The kernel dispatch of `sep_detection` (lines 162–168): integer to preset
lookup, sequence to the Gaussian formula, otherwise the wrong-type error. -/
def resolve_kernel (cdf sqrt : ℚ → ℚ) : KernelArg → Except String (List (List ℚ))
  | KernelArg.kInt k => simple_convolution_kernel k
  | KernelArg.kSeq size sig => Except.ok (get_gaussian_kernel cdf sqrt size sig)
  | KernelArg.kOther _ => Except.error wrongKernelMsg

/-- The threshold rescaling of `sep_detection` (lines 183–184): multiplied by
the background's global RMS exactly when no error array is supplied. -/
def sep_threshold (threshold : ℚ) (err : Option (List ℚ)) (globalrms : ℚ) : ℚ :=
  match err with
  | none => threshold * globalrms
  | some _ => threshold

/-- The possible Python returns of `sep_detection`: `(obj, seg, bkg)`,
`(results, bkg)`, or the implicit `None` of the fall-through paths. -/
inductive DetRet (Obj Seg : Type) where
  | objSegBkg (o : Obj) (s : Seg) (b : BkgModel)
  | objBkg (o : Obj) (b : BkgModel)
  | noRet

/-- The keyword arguments `sep_detection` can forward to `sep_background`. -/
structure BkgKwargs where
  mask : Option (List ℚ)
  bw : Option ℚ
  bh : Option ℚ
  fw : Option ℚ
  fh : Option ℚ
  bkgsize_min : ℚ

/-- The defaults of `sep_background`'s keyword parameters. -/
def defaultBkgKwargs : BkgKwargs := ⟨none, none, none, none, none, 10⟩

/-- The keyword set actually used: `bkg_kwargs` if given, the defaults if not. -/
def kwOf (k : Option BkgKwargs) : BkgKwargs := k.getD defaultBkgKwargs

/-- The background model held by either form of `sep_background`'s return. -/
def bkgOf : BkgRet → BkgModel
  | BkgRet.withImage b _ => b
  | BkgRet.bkgOnly b => b

/-- `sep_detection(img, threshold, kernel, err, use_sig, subtract_bkg,
return_bkg, return_seg, bkg_kwargs)`.  `sepB` models `sep.Background`;
`extractSeg` and `extractNoSeg` model `sep.extract` with
`segmentation_map=True` and `False` (each receives the image, the threshold,
the `use_sig` flag selecting the `err=`/`var=` channel, the error array and
the filter kernel).  The result pairs the Python return value with the state
of the caller's image array after the call. -/
def sep_detection (Obj Seg : Type)
    (sepB : Image → Option (List Bool) → ℚ → ℚ → ℚ → ℚ → BkgModel)
    (extractSeg : Image → ℚ → Bool → Option (List ℚ) → List (List ℚ) → Obj × Seg)
    (extractNoSeg : Image → ℚ → Bool → Option (List ℚ) → List (List ℚ) → Obj)
    (img : Image) (threshold : ℚ) (kernel : KernelArg) (err : Option (List ℚ))
    (use_sig subtract_bkg return_bkg return_seg : Bool)
    (bkg_kwargs : Option BkgKwargs) (cdf sqrt : ℚ → ℚ) :
    Except String (DetRet Obj Seg × Image) :=
  match resolve_kernel cdf sqrt kernel with
  | Except.error e => Except.error e
  | Except.ok filter_kernel =>
    let kw := kwOf bkg_kwargs
    let bi := sep_background sepB img kw.mask kw.bw kw.bh kw.fw kw.fh subtract_bkg
      kw.bkgsize_min
    let bkg := bkgOf bi.1
    let img1 := bi.2
    let thr := sep_threshold threshold err bkg.globalrms
    let ret :=
      if return_seg then
        let os := extractSeg img1 thr use_sig err filter_kernel
        if return_bkg then DetRet.objSegBkg os.1 os.2 bkg else DetRet.noRet
      else
        let o := extractNoSeg img1 thr use_sig err filter_kernel
        if return_bkg then DetRet.objBkg o bkg else DetRet.noRet
    Except.ok (ret, img1)

/-- The shape of a `sep_detection` return value: a triple `(obj, seg, bkg)`,
a pair `(results, bkg)`, or the implicit `None`. -/
inductive DetShape where
  | tripleShape
  | pairShape
  | noneShape
deriving DecidableEq

/-- Classify a `sep_detection` return value by its shape. -/
def detShapeOf (Obj Seg : Type) : DetRet Obj Seg → DetShape
  | DetRet.objSegBkg _ _ _ => DetShape.tripleShape
  | DetRet.objBkg _ _ => DetShape.pairShape
  | DetRet.noRet => DetShape.noneShape

/-- The return shape `sep_detection` actually produces for each flag pair. -/
def expectedDetShape (return_seg return_bkg : Bool) : DetShape :=
  if return_bkg then
    (if return_seg then DetShape.tripleShape else DetShape.pairShape)
  else DetShape.noneShape

/-- A `sep_detection` call whose successful outcomes leave the caller's image
array in its original state. -/
def detLeavesImage (Obj Seg : Type) (res : Except String (DetRet Obj Seg × Image))
    (img : Image) : Prop :=
  ∀ r i2, res = Except.ok (r, i2) → i2 = img

/-- `d2` is `d` with the model's background estimate subtracted from every
pixel. -/
def subtractsEveryPixel (b : BkgModel) (d d2 : List ℚ) : Prop :=
  d2.length = d.length ∧ ∀ i, i < d.length → lget d2 i = lget d i - b.back i

/-- The detected-objects component of a `(results, bkg)` return with
`Obj = ℚ` (used to observe the threshold handed to the extraction call). -/
def objBkgObj (r : DetRet ℚ Unit) : Option ℚ :=
  match r with
  | DetRet.objBkg o _ => some o
  | _ => none

theorem bkg_subfrom_spec (b : BkgModel) (d : List ℚ) :
    subtractsEveryPixel b d (bkg_subfrom b d) := by
  constructor
  · simp [bkg_subfrom]
  · intro i hi
    unfold bkg_subfrom lget
    rw [List.getElem?_zipWith]
    simp [List.getElem?_range (by simpa using hi), List.getElem?_eq_getElem hi]

theorem sck_ne_wrong (k : ℤ) :
    simple_convolution_kernel k ≠ Except.error wrongKernelMsg := by
  unfold simple_convolution_kernel
  split_ifs <;> simp [unsupportedKernelMsg, wrongKernelMsg]

/-- C3: with no explicit sizes, `sep_background` computes
`bw = bh = max(shape[0]/5, bkgsize_min)` and `fw = bw/2`, `fh = bh/2`;
in particular a 100×100 image gives `(20, 20, 10, 10)` and a 40×40 image
clamps to `(10, 10, 5, 5)`. -/
theorem background_size_defaults (shape0 : ℕ) (m : ℚ) :
    sep_background_sizes shape0 none none none none m
      = (max ((shape0 : ℚ) / 5) m, max ((shape0 : ℚ) / 5) m,
         max ((shape0 : ℚ) / 5) m / 2, max ((shape0 : ℚ) / 5) m / 2)
      ∧ sep_background_sizes 100 none none none none 10 = (20, 20, 10, 10)
      ∧ sep_background_sizes 40 none none none none 10 = (10, 10, 5, 5) := by
  refine ⟨?_, by norm_num [sep_background_sizes], by norm_num [sep_background_sizes]⟩
  unfold sep_background_sizes
  by_cases h : (shape0 : ℚ) / 5 ≥ m
  · simp only [if_pos h, max_eq_left h]
  · simp only [if_neg h, max_eq_right (le_of_lt (not_le.mp h))]

/-- C4: the threshold handed to the extraction primitive is the caller's
threshold times the background's `globalrms` exactly when `err` is absent,
and the caller's threshold unchanged when `err` is supplied.  The second
conjunct observes this end to end: instantiating the extraction primitive to
return the threshold it receives, `sep_detection` hands it exactly
`sep_threshold threshold err globalrms`. -/
theorem detection_threshold_rescale :
    (∀ (t g : ℚ) (e : List ℚ),
        sep_threshold t none g = t * g ∧ sep_threshold t (some e) g = t)
      ∧ ∀ (sepB : Image → Option (List Bool) → ℚ → ℚ → ℚ → ℚ → BkgModel)
          (img : Image) (t : ℚ) (err : Option (List ℚ)) (sb : Bool)
          (kw : Option BkgKwargs) (cdf sqrt : ℚ → ℚ),
          Except.map (fun p => objBkgObj p.1)
            (sep_detection ℚ Unit sepB (fun _ a _ _ _ => (a, ()))
              (fun _ a _ _ _ => a) img t (KernelArg.kInt 4) err true sb true false
              kw cdf sqrt)
            = Except.ok (some (sep_threshold t err
                (sep_background_model sepB img (kwOf kw).mask (kwOf kw).bw
                  (kwOf kw).bh (kwOf kw).fw (kwOf kw).fh
                  (kwOf kw).bkgsize_min).globalrms)) := by
  refine ⟨fun t g e => ⟨rfl, rfl⟩, ?_⟩
  intro sepB img t err sb kw cdf sqrt
  have hres : resolve_kernel cdf sqrt (KernelArg.kInt 4) = Except.ok refKernel4 := rfl
  unfold sep_detection
  rw [hres]
  cases sb <;> simp [sep_background, bkgOf, objBkgObj, Except.map]

/-- C8: `sep_detection`'s kernel dispatch raises the wrong-kernel-type error
exactly when the argument is neither an integer nor a sequence; an integer
goes to the preset lookup and a `(size, sigma)` sequence to the Gaussian
formula. -/
theorem detection_kernel_dispatch (cdf sqrt : ℚ → ℚ) (arg : KernelArg) (k : ℤ)
    (size : ℕ) (sig : ℚ) (d : String) :
    (resolve_kernel cdf sqrt arg = Except.error wrongKernelMsg ↔ isOtherKernelArg arg)
      ∧ resolve_kernel cdf sqrt (KernelArg.kInt k) = simple_convolution_kernel k
      ∧ resolve_kernel cdf sqrt (KernelArg.kSeq size sig)
          = Except.ok (get_gaussian_kernel cdf sqrt size sig)
      ∧ resolve_kernel cdf sqrt (KernelArg.kOther d) = Except.error wrongKernelMsg := by
  refine ⟨?_, rfl, rfl, rfl⟩
  cases arg with
  | kInt k2 => simpa [resolve_kernel, isOtherKernelArg] using sck_ne_wrong k2
  | kSeq s g => simp [resolve_kernel, isOtherKernelArg]
  | kOther dd => simp [resolve_kernel, isOtherKernelArg]

/-- C2 (amended): when the kernel resolves, `sep_detection` returns
`(obj, seg, bkg)` if both flags are true, `(results, bkg)` if only
`return_bkg` is true, and the implicit `None` whenever `return_bkg` is false —
regardless of `return_seg`.  The claimed independent optionality fails: the
extraction result is returned only when `return_bkg` is true. -/
theorem detection_return_shape (Obj Seg : Type)
    (sepB : Image → Option (List Bool) → ℚ → ℚ → ℚ → ℚ → BkgModel)
    (extractSeg : Image → ℚ → Bool → Option (List ℚ) → List (List ℚ) → Obj × Seg)
    (extractNoSeg : Image → ℚ → Bool → Option (List ℚ) → List (List ℚ) → Obj)
    (img : Image) (t : ℚ) (kern : KernelArg) (err : Option (List ℚ))
    (us sb rb rs : Bool) (kw : Option BkgKwargs) (cdf sqrt : ℚ → ℚ)
    (hok : (resolve_kernel cdf sqrt kern).isOk = true) :
    Except.map (fun p => detShapeOf Obj Seg p.1)
      (sep_detection Obj Seg sepB extractSeg extractNoSeg img t kern err us sb rb rs
        kw cdf sqrt)
      = Except.ok (expectedDetShape rs rb) := by
  cases hres : resolve_kernel cdf sqrt kern with
  | error e => rw [hres] at hok; simp [Except.isOk, Except.toBool] at hok
  | ok fk =>
    unfold sep_detection
    rw [hres]
    cases rs <;> cases rb <;> simp [detShapeOf, expectedDetShape, Except.map]

/-- Witness for C2's amended theorem at a concrete call with
`return_seg=False, return_bkg=True`: the shape is the pair `(results, bkg)`. -/
theorem detection_return_shape_wit :
    Except.map (fun p => detShapeOf ℕ ℕ p.1)
      (sep_detection ℕ ℕ (fun _ _ _ _ _ _ => BkgModel.mk 1 (fun _ => 0))
        (fun _ _ _ _ _ => (7, 3)) (fun _ _ _ _ _ => 7) (Image.mk 2 [1, 2]) 2
        (KernelArg.kInt 2) none true false true false none id id)
      = Except.ok (expectedDetShape false true) :=
  detection_return_shape ℕ ℕ (fun _ _ _ _ _ _ => BkgModel.mk 1 (fun _ => 0))
    (fun _ _ _ _ _ => (7, 3)) (fun _ _ _ _ _ => 7) (Image.mk 2 [1, 2]) 2
    (KernelArg.kInt 2) none true false true false none id id rfl

/-- Counterexample to C2 as stated: with `return_seg=True, return_bkg=False`
the claimed return would be a tuple containing the extraction result and the
segmentation map, but the source falls through both `return` statements and
yields the implicit `None` (`DetRet.noRet`). -/
theorem detection_return_shape_cex :
    sep_detection ℕ ℕ (fun _ _ _ _ _ _ => BkgModel.mk 1 (fun _ => 0))
      (fun _ _ _ _ _ => (7, 3)) (fun _ _ _ _ _ => 7) (Image.mk 2 [1, 2]) 2
      (KernelArg.kInt 1) none true false false true none id id
      = Except.ok (DetRet.noRet, Image.mk 2 [1, 2]) := rfl

/-- C9: the caller's image is mutated only under `subtract=True`: with
`subtract=False` `sep_background` returns the bare model and leaves the image
unchanged; with `subtract=True` it returns `(bkg, img)` with the image
replaced, in place, by the pixel-wise difference with the background
estimate; and `sep_detection` with `subtract_bkg=False` also leaves the
caller's image unchanged. -/
theorem background_mutation_only_subtract
    (sepB : Image → Option (List Bool) → ℚ → ℚ → ℚ → ℚ → BkgModel)
    (img : Image) (mask : Option (List ℚ)) (bw bh fw fh : Option ℚ) (m : ℚ)
    (Obj Seg : Type)
    (extractSeg : Image → ℚ → Bool → Option (List ℚ) → List (List ℚ) → Obj × Seg)
    (extractNoSeg : Image → ℚ → Bool → Option (List ℚ) → List (List ℚ) → Obj)
    (t : ℚ) (kern : KernelArg) (err : Option (List ℚ)) (us rb rs : Bool)
    (kw : Option BkgKwargs) (cdf sqrt : ℚ → ℚ) :
    sep_background sepB img mask bw bh fw fh false m
        = (BkgRet.bkgOnly (sep_background_model sepB img mask bw bh fw fh m), img)
      ∧ sep_background sepB img mask bw bh fw fh true m
          = (BkgRet.withImage (sep_background_model sepB img mask bw bh fw fh m)
              (Image.mk img.shape0
                (bkg_subfrom (sep_background_model sepB img mask bw bh fw fh m)
                  img.data)),
             Image.mk img.shape0
               (bkg_subfrom (sep_background_model sepB img mask bw bh fw fh m)
                 img.data))
      ∧ subtractsEveryPixel (sep_background_model sepB img mask bw bh fw fh m)
          img.data
          (bkg_subfrom (sep_background_model sepB img mask bw bh fw fh m) img.data)
      ∧ detLeavesImage Obj Seg
          (sep_detection Obj Seg sepB extractSeg extractNoSeg img t kern err us false
            rb rs kw cdf sqrt)
          img := by
  refine ⟨rfl, rfl, bkg_subfrom_spec _ _, ?_⟩
  intro r i2 h
  cases hres : resolve_kernel cdf sqrt kern with
  | error e => rw [sep_detection, hres] at h; cases h
  | ok fk =>
    rw [sep_detection, hres] at h
    simp only [sep_background, if_neg Bool.false_ne_true] at h
    exact (congrArg Prod.snd (Except.ok.inj h)).symm
